import Mathlib

/-!
Verification of the `writer` package of influx-spout (`src/writer/writer.go`).

Bytes are modelled as `List Nat`; the newline byte is `10`. External
collaborators (the rule matcher, the NATS subscription, the stats registry)
are modelled at the interface the writer consumes, following the design
document where their code is not part of the sources.
-/

set_option autoImplicit false

namespace InfluxSpout

/-- A byte string, one `Nat` per byte. -/
abbrev Bytes := List Nat

/-- The newline byte used as the line boundary (`[]byte("\n")`). -/
def newline : Nat := 10

/-- Go `bytes.SplitAfter(data, []byte("\n"))` specialised to the single-byte
separator used at writer.go:201: splits `data` after each newline byte,
keeping the separator at the end of each piece.  `SplitAfter` of the empty
slice yields one empty piece, and a trailing newline yields a trailing
empty piece, exactly as in Go. -/
def splitAfter : Bytes → List Bytes
  | [] => [[]]
  | b :: rest =>
    if b = newline then [b] :: splitAfter rest
    else
      match splitAfter rest with
      | [] => [[b]]
      | h :: t => (b :: h) :: t

/-- `(*Writer).filterLine` (writer.go:209-214).  The external rule matcher
`rules.Lookup(line) != -1` is abstracted as the boolean predicate
`accept` (the design document's `Accept`). -/
def filterLine (accept : Bytes → Bool) (line : Bytes) : Bool :=
  if line.length = 0 then false else accept line

/-- `(*Writer).getBatchWriteFunc` (writer.go:185-207), modelled as the list of
`batch.Write` calls the returned closure performs for one payload `data`.
With zero rules the payload is appended whole; otherwise it is split with
`bytes.SplitAfter` on newlines and each piece passing `filterLine` is
written. -/
def batchWrites (ruleCount : Nat) (accept : Bytes → Bool) (data : Bytes) : List Bytes :=
  if ruleCount = 0 then [data]
  else (splitAfter data).filter (filterLine accept)

/-- Modelled from the spec: the batch accumulator (`batchBuffer`, used by
writer.go but defined outside the provided sources).  Design document §3:
mutable state `{bytes, writeCount, createdAt}` with the invariant
`writeCount == 0 ⇔ bytes is empty ⇔ createdAt is unset`. -/
structure BatchBuffer where
  bytes : Bytes
  writeCount : Nat
  createdAt : Option Nat
deriving Repr, DecidableEq

/-- Modelled from the spec: a freshly created or reset accumulator is empty
with no age reference (design document §3, §4.1 `Reset`). -/
def BatchBuffer.empty : BatchBuffer :=
  { bytes := [], writeCount := 0, createdAt := none }

/-- Modelled from the spec (§4.1 `Write`): appends `data`, increments
`writeCount`, and sets `createdAt` to `now` if this is the first write
since the last reset. -/
def BatchBuffer.write (b : BatchBuffer) (now : Nat) (data : Bytes) : BatchBuffer :=
  { bytes := b.bytes ++ data
    writeCount := b.writeCount + 1
    createdAt := match b.createdAt with
      | none => some now
      | some t => some t }

/-- Modelled from the spec (§4.1 `Reset`): discards all buffered bytes and
counters unconditionally. -/
def BatchBuffer.reset (_ : BatchBuffer) : BatchBuffer := BatchBuffer.empty

/-- The accumulator's byte size (`batch.Size()`). -/
def BatchBuffer.size (b : BatchBuffer) : Nat := b.bytes.length

/-- Modelled from the spec: the accumulator's age (`batch.Age()`),
`now - createdAt` when the age reference is set and zero when it is unset
(design document §3: `createdAt` is unset exactly when the buffer is
empty). -/
def BatchBuffer.age (b : BatchBuffer) (now : Nat) : Nat :=
  match b.createdAt with
  | none => 0
  | some t => now - t

/-- The spec invariant on accumulator states (design document §3):
`writeCount == 0 ⇔ createdAt is unset`. -/
def BatchBuffer.inv (b : BatchBuffer) : Prop :=
  b.writeCount = 0 ↔ b.createdAt = none

/-- The configured flush thresholds (design document §3, read-only triple):
`BatchMessages`, `batchMaxBytes` and `batchMaxAge` of the `Writer`. -/
structure Thresholds where
  batchMessages : Nat
  batchMaxBytes : Nat
  batchMaxAge : Nat
deriving Repr, DecidableEq

/-- `(*Writer).shouldSendBatch` (writer.go:216-220):
`batch.Writes() >= w.c.BatchMessages || batch.Size() >= w.batchMaxBytes ||
batch.Age() >= w.batchMaxAge`. -/
def shouldSendBatch (t : Thresholds) (b : BatchBuffer) (now : Nat) : Bool :=
  t.batchMessages ≤ b.writeCount || t.batchMaxBytes ≤ b.size || t.batchMaxAge ≤ b.age now

/-- Outcome of the HTTP POST issued by `sendBatch` (writer.go:224): either a
transport error from `client.Post`, or a response with a status code. -/
inductive PostResult where
  | transportError
  | response (statusCode : Nat)
deriving Repr, DecidableEq

/-- `(*Writer).sendBatch` (writer.go:223-242), modelled as whether it returns
a non-nil error: a transport error always does, a response does iff
`resp.StatusCode > 300`. -/
def sendBatchFails : PostResult → Bool
  | .transportError => true
  | .response code => 300 < code

/-- The writer's failure/throughput counters (`received`, `write_requests`,
`failed_writes`). -/
structure Counters where
  received : Nat
  writeRequests : Nat
  failedWrites : Nat
deriving Repr, DecidableEq

/-- The state a worker owns: its batch accumulator and the shared counters
(modelled per-worker since counter updates are atomic adds). -/
structure WorkerState where
  batch : BatchBuffer
  counters : Counters
deriving Repr, DecidableEq

/-- The job-arrival case of the worker loop (writer.go:162-164): increment
`received`, then run the batch write function on the payload. -/
def workerHandleJob (ruleCount : Nat) (accept : Bytes → Bool) (s : WorkerState)
    (now : Nat) (data : Bytes) : WorkerState :=
  { batch := (batchWrites ruleCount accept data).foldl (fun b d => b.write now d) s.batch
    counters := { s.counters with received := s.counters.received + 1 } }

/-- The flush check at the bottom of the worker loop (writer.go:171-181): if
`shouldSendBatch`, increment `write_requests`, send the batch, increment
`failed_writes` when the send returned an error, and reset the buffer on
success or error. -/
def workerFlushStep (t : Thresholds) (s : WorkerState) (now : Nat)
    (post : PostResult) : WorkerState :=
  if shouldSendBatch t s.batch now then
    { batch := s.batch.reset
      counters :=
        { s.counters with
          writeRequests := s.counters.writeRequests + 1
          failedWrites :=
            s.counters.failedWrites + (if sendBatchFails post then 1 else 0) } }
  else s

/-- Result of a NATS subscription query (`sub.MaxPending()` / `sub.Dropped()`
both return a value and an error). -/
inductive QueryResult (α : Type) where
  | ok (v : α)
  | err
deriving Repr, DecidableEq

/-- Whether a query succeeded. -/
def QueryResult.isOk {α : Type} : QueryResult α → Bool
  | .ok _ => true
  | .err => false

/-- The state the backpressure monitor carries across iterations: `last` (the
previous dropped-count sample, writer.go:259) and the `max_pending` gauge in
the stats registry. -/
structure MonitorState where
  last : Int
  maxPendingGauge : Int
deriving Repr, DecidableEq

/-- One iteration of the `for` loop in `(*Writer).monitorSub`
(writer.go:265-289).  Returns the updated state, the drop event emitted by
`signalDrop` (its delta `drop - last`, writer.go:246), and whether the
iteration reaches the `select` at the bottom of the loop that waits one
tick and checks the stop signal — a failed `MaxPending` or `Dropped` query
logs and runs `continue`, which jumps back to the top of the loop and
skips that `select`.  `stats.Max` (outside the provided sources) is
modelled from the spec as set-if-greater (design document §4.5). -/
def monitorIter (s : MonitorState) (maxPendingRes droppedRes : QueryResult Int) :
    MonitorState × Option Int × Bool :=
  match maxPendingRes with
  | .err => (s, none, false)
  | .ok maxBytes =>
    let s1 : MonitorState := { s with maxPendingGauge := max s.maxPendingGauge maxBytes }
    match droppedRes with
    | .err => (s1, none, false)
    | .ok drop =>
      if drop ≠ s1.last then ({ s1 with last := drop }, some (drop - s1.last), true)
      else ({ s1 with last := drop }, none, true)

/-- A run of monitor iterations in which every query succeeds: each tick
supplies a `(maxPendingBytes, droppedCount)` sample.  Returns the final
state and the list of emitted drop-event deltas, in order. -/
def monitorRun (s : MonitorState) : List (Int × Int) → MonitorState × List Int
  | [] => (s, [])
  | (mb, d) :: rest =>
    let step := monitorIter s (.ok mb) (.ok d)
    let tail := monitorRun step.1 rest
    (tail.1, step.2.1.toList ++ tail.2)

/-- The point at which `StartWriter` (writer.go:61-132) can fail and return
early; at each such point the deferred `w.Stop()` (writer.go:70-74) runs on
the partially started writer.  `subscribeError k` / `pendingLimitsError k`
fail while handling subject `k` (0-based), after the monitors for subjects
`0..k-1` were started. -/
inductive StartFailure where
  | ruleSetError
  | natsConnectError
  | subscribeError (k : Nat)
  | pendingLimitsError (k : Nat)
  | flushError
deriving Repr, DecidableEq

/-- The components of a partially or fully started writer, read off the
control flow of `StartWriter`: whether the stop channel was created
(writer.go:68, in the struct literal, before any failure point), whether
`nats.Connect` succeeded (writer.go:83), how many worker and monitor
goroutines were started, whether the statistician was started, and the
total count added to the wait group (`wg.Add`, writer.go:95,113,123). -/
structure LifecycleState where
  stopChanCreated : Bool
  ncConnected : Bool
  workersStarted : Nat
  monitorsStarted : Nat
  statisticianStarted : Bool
  wgAdds : Nat
deriving Repr, DecidableEq

/-- The partial state `StartWriter` has built when it fails at the given
point (or completes, for `none`), for a configuration with `numWorkers`
workers and `numSubjects` subscribed subjects.  Workers are started before
the per-subject loop; the monitor for subject `k` is started only after
its subscribe and pending-limit calls succeed; the statistician is started
after the flush. -/
def startWriterPartial (numWorkers numSubjects : Nat) :
    Option StartFailure → LifecycleState
  | some .ruleSetError =>
    { stopChanCreated := true, ncConnected := false, workersStarted := 0
      monitorsStarted := 0, statisticianStarted := false, wgAdds := 0 }
  | some .natsConnectError =>
    { stopChanCreated := true, ncConnected := false, workersStarted := 0
      monitorsStarted := 0, statisticianStarted := false, wgAdds := 0 }
  | some (.subscribeError k) =>
    { stopChanCreated := true, ncConnected := true, workersStarted := numWorkers
      monitorsStarted := min k numSubjects, statisticianStarted := false
      wgAdds := numWorkers + min k numSubjects }
  | some (.pendingLimitsError k) =>
    { stopChanCreated := true, ncConnected := true, workersStarted := numWorkers
      monitorsStarted := min k numSubjects, statisticianStarted := false
      wgAdds := numWorkers + min k numSubjects }
  | some .flushError =>
    { stopChanCreated := true, ncConnected := true, workersStarted := numWorkers
      monitorsStarted := numSubjects, statisticianStarted := false
      wgAdds := numWorkers + numSubjects }
  | none =>
    { stopChanCreated := true, ncConnected := true, workersStarted := numWorkers
      monitorsStarted := numSubjects, statisticianStarted := true
      wgAdds := numWorkers + numSubjects + 1 }

/-- What one call to `(*Writer).Stop` (writer.go:137-143) does, in order:
close the stop channel, `wg.Wait()` for as many goroutine exits as were
added to the wait group, and close the NATS connection only when it is
non-nil (`if w.nc != nil`). -/
structure StopOutcome where
  closedStop : Bool
  waitedGoroutines : Nat
  closedNc : Bool
deriving Repr, DecidableEq

/-- `(*Writer).Stop` applied to a (possibly partially started) writer
state. -/
def stopWriter (s : LifecycleState) : StopOutcome :=
  { closedStop := s.stopChanCreated
    waitedGoroutines := s.wgAdds
    closedNc := s.ncConnected }

/-! ### Supporting lemmas -/

/-- `SplitAfter` always yields at least one piece. -/
theorem splitAfter_ne_nil (data : Bytes) : splitAfter data ≠ [] := by
  cases data with
  | nil => simp [splitAfter]
  | cons b rest =>
    unfold splitAfter
    by_cases hb : b = newline
    · simp [hb]
    · simp only [hb, if_false]
      cases splitAfter rest <;> simp

/-- `SplitAfter` loses no bytes: concatenating the pieces restores the
payload, so each piece keeps its boundary byte and reassembly needs no
added separators. -/
theorem splitAfter_flatten (data : Bytes) : (splitAfter data).flatten = data := by
  induction data with
  | nil => rfl
  | cons b rest ih =>
    unfold splitAfter
    by_cases hb : b = newline
    · simp [hb, ih]
    · cases hs : splitAfter rest with
      | nil => exact absurd hs (splitAfter_ne_nil rest)
      | cons h t =>
        simp only [hb, if_false, hs, List.flatten_cons, List.cons_append]
        have hrest : h ++ t.flatten = rest := by
          have := ih
          rw [hs, List.flatten_cons] at this
          exact this
        rw [hrest]

/-- `filterLine` as a conjunction: a line passes iff it is nonempty and the
rule matcher accepts it. -/
theorem filterLine_eq_and (accept : Bytes → Bool) (l : Bytes) :
    filterLine accept l = (!l.isEmpty && accept l) := by
  cases l <;> simp [filterLine]

/-- Filtering with `filterLine` is discarding empty fragments and then
keeping the `Accept`-ed ones. -/
theorem filter_filterLine (accept : Bytes → Bool) (xs : List Bytes) :
    xs.filter (filterLine accept) =
      (xs.filter (fun l => !l.isEmpty)).filter accept := by
  rw [List.filter_filter]
  exact List.filter_congr (fun x _ => by rw [filterLine_eq_and, Bool.and_comm])

/-- The last piece of `SplitAfter` of a payload whose final byte is not a
newline is nonempty and ends in that same byte (no terminator is
appended). -/
theorem splitAfter_getLast (data : Bytes) (c : Nat) (hlast : data.getLast? = some c)
    (hc : c ≠ newline) :
    ∃ L, (splitAfter data).getLast? = some L ∧ L ≠ [] ∧ L.getLast? = some c := by
  induction data with
  | nil => simp at hlast
  | cons b rest ih =>
    cases rest with
    | nil =>
      rw [List.getLast?_singleton] at hlast
      have hb : b = c := by injection hlast
      subst hb
      refine ⟨[b], ?_, by simp, List.getLast?_singleton b⟩
      simp [splitAfter, hc]
    | cons b2 rest2 =>
      rw [List.getLast?_cons_cons] at hlast
      obtain ⟨L, h1, h2, h3⟩ := ih hlast
      by_cases hb : b = newline
      · refine ⟨L, ?_, h2, h3⟩
        unfold splitAfter
        simp only [hb, if_true, if_pos rfl]
        cases hs : splitAfter (b2 :: rest2) with
        | nil => exact absurd hs (splitAfter_ne_nil _)
        | cons h t =>
          rw [List.getLast?_cons_cons, ← hs]
          exact h1
      · cases hs : splitAfter (b2 :: rest2) with
        | nil => exact absurd hs (splitAfter_ne_nil _)
        | cons h t =>
          cases t with
          | nil =>
            rw [hs, List.getLast?_singleton] at h1
            have hL : h = L := by injection h1
            subst hL
            refine ⟨b :: h, ?_, by simp, ?_⟩
            · unfold splitAfter
              simp only [hb, if_false, hs]
              exact List.getLast?_singleton _
            · cases h with
              | nil => exact absurd rfl h2
              | cons x xs => rw [List.getLast?_cons_cons]; exact h3
          | cons t1 ts =>
            refine ⟨L, ?_, h2, h3⟩
            unfold splitAfter
            simp only [hb, if_false, hs]
            rw [List.getLast?_cons_cons]
            rw [hs, List.getLast?_cons_cons] at h1
            exact h1

/-- If the last element of a list passes the filter, it is also the last
element of the filtered list. -/
theorem getLast?_filter_of_pos {α : Type} (p : α → Bool) (l : List α) (x : α)
    (hx : l.getLast? = some x) (hp : p x = true) :
    (l.filter p).getLast? = some x := by
  induction l with
  | nil => simp at hx
  | cons a l ih =>
    cases l with
    | nil =>
      rw [List.getLast?_singleton] at hx
      have ha : a = x := by injection hx
      subst ha
      simp [List.filter, hp]
    | cons b t =>
      rw [List.getLast?_cons_cons] at hx
      have hrec := ih hx
      rw [List.filter_cons]
      split
      · cases hf : (b :: t).filter p with
        | nil => rw [hf] at hrec; simp at hrec
        | cons y ys =>
          rw [hf] at hrec
          rw [List.getLast?_cons_cons]
          exact hrec
      · exact hrec

/-- The spec invariant holds for the empty accumulator. -/
theorem BatchBuffer.inv_empty : BatchBuffer.empty.inv := by
  simp [BatchBuffer.inv, BatchBuffer.empty]

/-- `Write` re-establishes the spec invariant: afterwards the count is
positive and the age reference is set. -/
theorem BatchBuffer.inv_write (b : BatchBuffer) (now : Nat) (data : Bytes) :
    (b.write now data).inv := by
  unfold BatchBuffer.inv BatchBuffer.write
  cases b.createdAt <;> simp

/-- `Reset` re-establishes the spec invariant. -/
theorem BatchBuffer.inv_reset (b : BatchBuffer) : b.reset.inv :=
  BatchBuffer.inv_empty

/-- The state after a fully successful monitor iteration: `last` becomes the
new dropped sample, the gauge is raised to the sample if greater. -/
theorem monitorIter_ok_state (s : MonitorState) (mb d : Int) :
    (monitorIter s (.ok mb) (.ok d)).1 =
      { last := d, maxPendingGauge := max s.maxPendingGauge mb } := by
  unfold monitorIter
  by_cases h : d ≠ s.last <;> simp [h]

/-- The gauge after a run of successful monitor cycles is the left fold of
`max` over the pending-bytes samples. -/
theorem monitorRun_gauge (ticks : List (Int × Int)) :
    ∀ s : MonitorState, (monitorRun s ticks).1.maxPendingGauge =
      ticks.foldl (fun g p => max g p.1) s.maxPendingGauge := by
  induction ticks with
  | nil => intro s; rfl
  | cons p rest ih =>
    intro s
    obtain ⟨mb, d⟩ := p
    show (monitorRun (monitorIter s (.ok mb) (.ok d)).1 rest).1.maxPendingGauge = _
    rw [ih, monitorIter_ok_state]
    rfl

/-- The initial gauge value never exceeds a fold of `max` over samples. -/
theorem le_foldl_max_self (xs : List Int) : ∀ g : Int, g ≤ xs.foldl max g := by
  induction xs with
  | nil => intro g; exact le_refl g
  | cons x xs ih => intro g; exact le_trans (le_max_left g x) (ih (max g x))

/-- Every sample is bounded by the fold of `max` over the samples. -/
theorem le_foldl_max_of_mem (xs : List Int) :
    ∀ g : Int, ∀ x ∈ xs, x ≤ xs.foldl max g := by
  induction xs with
  | nil => intro g x hx; simp at hx
  | cons y ys ih =>
    intro g x hx
    rcases List.mem_cons.mp hx with h | h
    · subst h; exact le_trans (le_max_right g x) (le_foldl_max_self ys (max g x))
    · exact ih (max g y) x h

/-- Folding `max` of the first components equals folding `max` over the
projected list. -/
theorem foldl_max_fst (ticks : List (Int × Int)) :
    ∀ a : Int, ticks.foldl (fun g p => max g p.1) a =
      (ticks.map Prod.fst).foldl max a := by
  induction ticks with
  | nil => intro a; rfl
  | cons p rest ih => intro a; simp [List.foldl_cons, ih]

/-- The fold of `max` over samples is the initial value or one of the
samples. -/
theorem foldl_max_mem (xs : List Int) :
    ∀ g : Int, xs.foldl max g = g ∨ xs.foldl max g ∈ xs := by
  induction xs with
  | nil => intro g; exact Or.inl rfl
  | cons y ys ih =>
    intro g
    rcases ih (max g y) with h | h
    · rcases le_total g y with hgy | hgy
      · right
        rw [List.foldl_cons, h, max_eq_right hgy]
        exact List.mem_cons_self y ys
      · left
        rw [List.foldl_cons, h, max_eq_left hgy]
    · right
      exact List.mem_cons_of_mem y h

/-! ### Claims -/

/-- C1 counterexample: with `maxAge = 0` (configurable via `BatchMaxSecs = 0`)
the empty batch — which satisfies the spec's accumulator invariant —
flushes, because `shouldSendBatch` (writer.go:217-219) has no
`writeCount > 0` guard on the age branch, while none of the three claimed
threshold conditions holds: the claimed equivalence fails at this concrete
input. -/
theorem c1_counterexample :
    shouldSendBatch ⟨3, 100, 0⟩ BatchBuffer.empty 0 = true ∧
    ¬ ((3 : Nat) ≤ BatchBuffer.empty.writeCount ∨
        (100 : Nat) ≤ BatchBuffer.empty.size ∨
        (0 < BatchBuffer.empty.writeCount ∧
          (0 : Nat) ≤ BatchBuffer.empty.age 0)) ∧
    BatchBuffer.empty.inv :=
  ⟨by decide, by decide, BatchBuffer.inv_empty⟩

/-- C1 (amended): for every batch state satisfying the spec's accumulator
invariant, provided the configured `maxAge` threshold is positive,
`shouldSendBatch` returns true if and only if `writeCount >= maxCount`, or
`byteSize >= maxBytes`, or `writeCount > 0` and the batch's age is at
least `maxAge` — never before one of the three threshold conditions
holds.  (With `maxAge = 0` the equivalence fails: an empty batch flushes,
see the counterexample.) -/
theorem c1_shouldSendBatch_iff (t : Thresholds) (b : BatchBuffer) (now : Nat)
    (hinv : b.inv) (hage : 0 < t.batchMaxAge) :
    shouldSendBatch t b now = true ↔
      (t.batchMessages ≤ b.writeCount ∨ t.batchMaxBytes ≤ b.size ∨
        (0 < b.writeCount ∧ t.batchMaxAge ≤ b.age now)) := by
  unfold BatchBuffer.inv at hinv
  unfold shouldSendBatch
  simp only [Bool.or_eq_true, decide_eq_true_eq]
  constructor
  · rintro ((h | h) | h)
    · exact Or.inl h
    · exact Or.inr (Or.inl h)
    · refine Or.inr (Or.inr ⟨?_, h⟩)
      rcases Nat.eq_zero_or_pos b.writeCount with hz | hpos
      · exfalso
        have hnone : b.createdAt = none := hinv.mp hz
        have hzero : b.age now = 0 := by unfold BatchBuffer.age; rw [hnone]
        rw [hzero] at h
        exact Nat.lt_irrefl 0 (Nat.lt_of_lt_of_le hage h)
      · exact hpos
  · rintro (h | h | ⟨_, h⟩)
    · exact Or.inl (Or.inl h)
    · exact Or.inl (Or.inr h)
    · exact Or.inr h

/-- C1 witness: a one-write batch created at time 0 with `maxAge = 5` must
flush at time 7 — the age path of the flush policy fires. -/
theorem c1_witness :
    shouldSendBatch ⟨3, 100, 5⟩ ⟨[97], 1, some 0⟩ 7 = true := by
  have h := c1_shouldSendBatch_iff ⟨3, 100, 5⟩ ⟨[97], 1, some 0⟩ 7
    (by simp [BatchBuffer.inv]) (by decide)
  exact h.mpr (Or.inr (Or.inr ⟨by decide, by decide⟩))

/-- C2 counterexample: a response with status code exactly 300 satisfies
"status code >= 300", yet `sendBatch` returns no error for it — the code
compares `resp.StatusCode > 300`, so no failure is recorded at 300 and the
claimed equivalence fails at that concrete input. -/
theorem c2_counterexample :
    ¬ (sendBatchFails (PostResult.response 300) = true ↔
        (PostResult.response 300 = PostResult.transportError ∨
          ∃ c, PostResult.response 300 = PostResult.response c ∧ 300 ≤ c)) := by
  intro h
  have hfail : sendBatchFails (PostResult.response 300) = true :=
    h.mpr (Or.inr ⟨300, rfl, le_refl 300⟩)
  simp [sendBatchFails] at hfail

/-- C2 (amended): a flush's HTTP write is reported as a failure
(`failed_writes` incremented, error logged) exactly when the POST suffers a
transport error or the response status code is strictly greater than 300;
any response with status code at most 300 is a success and increments no
failure counter. -/
theorem c2_sendBatch_failure (post : PostResult) (t : Thresholds) (s : WorkerState)
    (now : Nat) (hflush : shouldSendBatch t s.batch now = true) :
    (sendBatchFails post = true ↔
      (post = PostResult.transportError ∨
        ∃ c, post = PostResult.response c ∧ 300 < c)) ∧
    (workerFlushStep t s now post).counters.failedWrites =
      s.counters.failedWrites + (if sendBatchFails post = true then 1 else 0) ∧
    (sendBatchFails post = false →
      (workerFlushStep t s now post).counters.failedWrites =
        s.counters.failedWrites) := by
  refine ⟨?_, ?_, ?_⟩
  · cases post with
    | transportError => simp [sendBatchFails]
    | response c =>
      simp only [sendBatchFails, decide_eq_true_eq]
      constructor
      · intro h
        exact Or.inr ⟨c, rfl, h⟩
      · rintro (h | ⟨c2, hc2, h⟩)
        · exact absurd h (by simp)
        · injection hc2 with h2
          rw [h2]
          exact h
  · simp [workerFlushStep, hflush]
  · intro hok
    simp [workerFlushStep, hflush, hok]

/-- C2 witness: a 500 response on a due flush increments `failed_writes` by
exactly one. -/
theorem c2_witness :
    (workerFlushStep ⟨1, 100, 5⟩ ⟨⟨[97], 1, some 0⟩, ⟨2, 3, 4⟩⟩ 7
        (PostResult.response 500)).counters.failedWrites = 5 := by
  have h := c2_sendBatch_failure (PostResult.response 500) ⟨1, 100, 5⟩
    ⟨⟨[97], 1, some 0⟩, ⟨2, 3, 4⟩⟩ 7 (by decide)
  rw [h.2.1]
  decide

/-- C3: with at least one rule the batch write function yields exactly the
lines — the nonempty `SplitAfter` fragments, each keeping its boundary
byte — for which `Accept` holds, in original order, and never yields a
zero-length fragment; the split loses no bytes (so terminators are
preserved); with zero rules the raw payload is passed through unmodified
as a single unit. -/
theorem c3_lineFilter (n : Nat) (accept : Bytes → Bool) (data : Bytes) :
    (n ≠ 0 →
      batchWrites n accept data =
        ((splitAfter data).filter (fun l => !l.isEmpty)).filter accept ∧
      ∀ l ∈ batchWrites n accept data, l ≠ []) ∧
    (splitAfter data).flatten = data ∧
    batchWrites 0 accept data = [data] := by
  refine ⟨fun hn => ?_, splitAfter_flatten data, by simp [batchWrites]⟩
  have heq : batchWrites n accept data = (splitAfter data).filter (filterLine accept) := by
    unfold batchWrites
    simp [hn]
  refine ⟨by rw [heq, filter_filterLine], ?_⟩
  intro l hl hnil
  rw [heq] at hl
  have hpass := (List.mem_filter.mp hl).2
  subst hnil
  simp [filterLine] at hpass

/-- C3 witness: with one rule, the payload "a\n\nb\n" splits into the
fragments "a\n", "\n", "b\n" and an empty trailing fragment; with an
accept-all matcher exactly the three nonempty fragments are yielded, in
order, terminators intact, and the split preserves the payload. -/
theorem c3_witness :
    batchWrites 1 (fun _ => true) [97, 10, 10, 98, 10] =
      [[97, 10], [10], [98, 10]] ∧
    (splitAfter [97, 10, 10, 98, 10]).flatten = [97, 10, 10, 98, 10] := by
  have h := c3_lineFilter 1 (fun _ => true) [97, 10, 10, 98, 10]
  refine ⟨?_, h.2.1⟩
  rw [(h.1 (by decide)).1]
  decide

/-- C4: after every flush attempt, regardless of the HTTP outcome, the
accumulator is reset immediately (writeCount 0, byte size 0, no retained
bytes, age reference cleared) so the batch's data is never re-sent, and a
failed attempt increments the failure counter exactly once. -/
theorem c4_reset_after_flush (t : Thresholds) (s : WorkerState) (now : Nat)
    (post : PostResult) (hflush : shouldSendBatch t s.batch now = true) :
    (workerFlushStep t s now post).batch.writeCount = 0 ∧
    (workerFlushStep t s now post).batch.size = 0 ∧
    (workerFlushStep t s now post).batch.bytes = [] ∧
    (workerFlushStep t s now post).batch.createdAt = none ∧
    (workerFlushStep t s now post).counters.failedWrites =
      s.counters.failedWrites + (if sendBatchFails post = true then 1 else 0) := by
  simp [workerFlushStep, hflush, BatchBuffer.reset, BatchBuffer.empty, BatchBuffer.size]

/-- C4 witness: a due flush whose POST suffers a transport error leaves an
empty accumulator and bumps `failed_writes` from 4 to 5. -/
theorem c4_witness :
    (workerFlushStep ⟨1, 100, 5⟩ ⟨⟨[97], 1, some 0⟩, ⟨2, 3, 4⟩⟩ 7
        PostResult.transportError).batch =
      BatchBuffer.empty ∧
    (workerFlushStep ⟨1, 100, 5⟩ ⟨⟨[97], 1, some 0⟩, ⟨2, 3, 4⟩⟩ 7
        PostResult.transportError).counters.failedWrites = 5 := by
  have h := c4_reset_after_flush ⟨1, 100, 5⟩ ⟨⟨[97], 1, some 0⟩, ⟨2, 3, 4⟩⟩ 7
    PostResult.transportError (by decide)
  refine ⟨?_, by rw [h.2.2.2.2]; decide⟩
  have h1 := h.1
  have h3 := h.2.2.1
  have h4 := h.2.2.2.1
  cases hb : (workerFlushStep ⟨1, 100, 5⟩ ⟨⟨[97], 1, some 0⟩, ⟨2, 3, 4⟩⟩ 7
      PostResult.transportError).batch with
  | mk bs wc ca =>
    rw [hb] at h1 h3 h4
    simp only at h1 h3 h4
    rw [BatchBuffer.empty, h1, h3, h4]

/-- C5: on every monitor tick where both queries succeed, a drop event is
emitted iff the sampled dropped count differs from the previous sample,
the logged delta equals `drop - last`, `last` is then set to `drop`; and
the sample sequence 0, 5, 5, 12 yields exactly two drop events with
deltas 5 and 7. -/
theorem c5_drop_events (s : MonitorState) (mb drop : Int) :
    ((monitorIter s (.ok mb) (.ok drop)).2.1 = some (drop - s.last) ↔
      drop ≠ s.last) ∧
    ((monitorIter s (.ok mb) (.ok drop)).2.1 = none ↔ drop = s.last) ∧
    (monitorIter s (.ok mb) (.ok drop)).1.last = drop ∧
    (monitorRun ⟨0, 0⟩ [(0, 0), (0, 5), (0, 5), (0, 12)]).2 = [5, 7] := by
  refine ⟨?_, ?_, ?_, by decide⟩
  · by_cases h : drop = s.last <;> simp [monitorIter, h]
  · by_cases h : drop = s.last <;> simp [monitorIter, h]
  · rw [monitorIter_ok_state]

/-- C6 counterexample: on a failed `MaxPending` or `Dropped` query the
iteration runs `continue`, which jumps back to the top of the loop and
never reaches the `select` at the bottom — so the monitor does not wait
one tick interval before re-querying and does not check the shutdown
signal on that cycle, contrary to the claim. -/
theorem c6_counterexample :
    (monitorIter ⟨0, 0⟩ .err .err).2.2 = false ∧
    (monitorIter ⟨0, 0⟩ .err (.ok 0)).2.2 = false ∧
    (monitorIter ⟨0, 0⟩ (.ok 0) .err).2.2 = false := by
  decide

/-- C6 (amended): a subscription-query error is logged and the same cycle is
retried, but immediately: `continue` skips the bottom-of-loop `select`, so
the monitor neither waits a tick interval nor observes the shutdown signal
on a failing cycle; the tick wait and shutdown check are reached exactly
when both queries succeed.  The monitor never exits because of a query
error. -/
theorem c6_error_retry (s : MonitorState) (mb d : QueryResult Int) :
    (monitorIter s mb d).2.2 = (mb.isOk && d.isOk) := by
  cases mb with
  | err => rfl
  | ok v =>
    cases d with
    | err => rfl
    | ok w =>
      unfold monitorIter
      by_cases h : w = s.last <;> simp [QueryResult.isOk, h]

/-- C7: the max_pending gauge has set-if-greater semantics: across any run of
successful monitor cycles its value never decreases as further samples
arrive, it is an upper bound on every sample observed so far (so it is
never lowered to a smaller instantaneous value), and — starting from the
registry's initial gauge value 0 — it is either still 0 or equal to one of
the observed samples, i.e. the historical maximum. -/
theorem c7_max_pending (l : Int) (ticks more : List (Int × Int)) :
    ((monitorRun ⟨l, 0⟩ ticks).1.maxPendingGauge ≤
      (monitorRun ⟨l, 0⟩ (ticks ++ more)).1.maxPendingGauge) ∧
    (∀ p ∈ ticks, p.1 ≤ (monitorRun ⟨l, 0⟩ ticks).1.maxPendingGauge) ∧
    ((monitorRun ⟨l, 0⟩ ticks).1.maxPendingGauge = 0 ∨
      ∃ p ∈ ticks, (monitorRun ⟨l, 0⟩ ticks).1.maxPendingGauge = p.1) := by
  refine ⟨?_, ?_, ?_⟩
  · rw [monitorRun_gauge ticks ⟨l, 0⟩, monitorRun_gauge (ticks ++ more) ⟨l, 0⟩,
      foldl_max_fst, foldl_max_fst, List.map_append, List.foldl_append]
    exact le_foldl_max_self _ _
  · intro p hp
    rw [monitorRun_gauge ticks ⟨l, 0⟩, foldl_max_fst]
    exact le_foldl_max_of_mem _ _ p.1 (List.mem_map_of_mem Prod.fst hp)
  · rw [monitorRun_gauge ticks ⟨l, 0⟩, foldl_max_fst]
    rcases foldl_max_mem (ticks.map Prod.fst) 0 with h | h
    · exact Or.inl h
    · obtain ⟨p, hp, hfst⟩ := List.mem_map.mp h
      exact Or.inr ⟨p, hp, hfst.symm⟩

/-- C8: `Stop` closes the shared shutdown signal (which `StartWriter`
creates before any failure point) exactly once for the one call it
receives per writer, waits on the wait group for exactly the goroutines
that were started — every worker, every monitor, and the statistician when
it was started — and closes the NATS connection only when `nats.Connect`
succeeded; hence after any failed partial start it waits on no
never-started component and never closes a nil connection. -/
theorem c8_stop_safe (numWorkers numSubjects : Nat) (scenario : Option StartFailure) :
    (stopWriter (startWriterPartial numWorkers numSubjects scenario)).closedStop = true ∧
    (startWriterPartial numWorkers numSubjects scenario).stopChanCreated = true ∧
    (stopWriter (startWriterPartial numWorkers numSubjects scenario)).waitedGoroutines =
      (startWriterPartial numWorkers numSubjects scenario).workersStarted +
        (startWriterPartial numWorkers numSubjects scenario).monitorsStarted +
        (if (startWriterPartial numWorkers numSubjects scenario).statisticianStarted
          then 1 else 0) ∧
    ((stopWriter (startWriterPartial numWorkers numSubjects scenario)).closedNc = true ↔
      (startWriterPartial numWorkers numSubjects scenario).ncConnected = true) := by
  cases scenario with
  | none => simp [startWriterPartial, stopWriter]
  | some f => cases f <;> simp [startWriterPartial, stopWriter]

/-- C9: with rules present, a payload whose final byte is not a newline
still yields its final fragment (when accepted) with no terminator
appended — it is the last write of the payload, so the next accepted line
concatenates onto it with no separator; only zero-length fragments are
discarded by `filterLine`, and a fragment consisting solely of a newline
is passed to the rule matcher rather than dropped as empty. -/
theorem c9_trailing_fragment (n : Nat) (accept : Bytes → Bool) (data : Bytes) (c : Nat)
    (hn : n ≠ 0) (hlast : data.getLast? = some c) (hc : c ≠ newline) :
    (∀ l, filterLine accept l = true ↔ (l ≠ [] ∧ accept l = true)) ∧
    filterLine accept [newline] = accept [newline] ∧
    ∃ L, (splitAfter data).getLast? = some L ∧ L ≠ [] ∧ L.getLast? = some c ∧
      (accept L = true → (batchWrites n accept data).getLast? = some L) := by
  refine ⟨?_, by simp [filterLine], ?_⟩
  · intro l
    cases l <;> simp [filterLine]
  · obtain ⟨L, h1, h2, h3⟩ := splitAfter_getLast data c hlast hc
    refine ⟨L, h1, h2, h3, fun hacc => ?_⟩
    have heq : batchWrites n accept data = (splitAfter data).filter (filterLine accept) := by
      unfold batchWrites
      simp [hn]
    rw [heq]
    apply getLast?_filter_of_pos _ _ _ h1
    rw [filterLine_eq_and]
    cases L with
    | nil => exact absurd rfl h2
    | cons x xs => simp [hacc]

/-- C9 witness: for the payload "a\nb" (no trailing newline) with one
accept-all rule, the final fragment "b" is the last piece of the split and
the last write performed, with no newline appended. -/
theorem c9_witness :
    (splitAfter [97, 10, 98]).getLast? = some [98] ∧
    (batchWrites 1 (fun _ => true) [97, 10, 98]).getLast? = some [98] := by
  obtain ⟨-, -, L, h1, -, -, h4⟩ :=
    c9_trailing_fragment 1 (fun _ => true) [97, 10, 98] 98
      (by decide) (by decide) (by decide)
  have hcomp : (splitAfter [97, 10, 98]).getLast? = some [98] := by decide
  rw [hcomp] at h1
  injection h1 with hL
  have h4' := h4 rfl
  rw [← hL] at h4'
  exact ⟨hcomp, h4'⟩

/-- C10: with an empty rule set, handling a delivered job — any payload,
including the empty one — increments `received` by exactly one and
performs exactly one accumulator write of the whole payload, so each
message counts as one write toward the maxCount flush threshold no matter
how many lines it contains. -/
theorem c10_passthrough (accept : Bytes → Bool) (s : WorkerState) (now : Nat)
    (data : Bytes) :
    batchWrites 0 accept data = [data] ∧
    (workerHandleJob 0 accept s now data).counters.received =
      s.counters.received + 1 ∧
    (workerHandleJob 0 accept s now data).batch.writeCount =
      s.batch.writeCount + 1 ∧
    (workerHandleJob 0 accept s now data).batch.bytes = s.batch.bytes ++ data := by
  refine ⟨by simp [batchWrites], ?_, ?_, ?_⟩ <;>
    simp [workerHandleJob, batchWrites, BatchBuffer.write]

end InfluxSpout
